import Mathlib

/-!
Verification development for the Chess Q&A chatbot (single-file Streamlit
application `bot.py`).  Text is modelled as `List Char`; Python's regular
expressions are embedded as explicit, deterministic string scanners that
reproduce the search/backtracking behaviour of the concrete patterns used
in the source.  The Streamlit session state is modelled as an explicit
`SessionState` record, and the per-message orchestration of `main` as a
pure step function `process_input` that additionally reports whether the
LLM client was invoked; the external LLM call is abstracted as an
`LLMResult` oracle (success text or raised-exception text).
-/

set_option maxRecDepth 8000

/-- Apostrophe character, used to build text containing it. -/
def apos : Char := Char.ofNat 39

/-- Model of Python `\s` (ASCII whitespace). -/
def isSpaceC (c : Char) : Bool :=
  c == ' ' || c == '\t' || c == '\n' || c == '\r' || c == '\x0b' || c == '\x0c'

/-- Model of the regex word-character class `\w` (ASCII). -/
def isWordChar (c : Char) : Bool := c.isAlphanum || c == '_'

/-- Lowercase a text, modelling Python `str.lower()`. -/
def lowerStr (s : List Char) : List Char := s.map Char.toLower

/-- Strip leading and trailing whitespace, modelling Python `str.strip()`. -/
def pyStrip (s : List Char) : List Char :=
  ((s.dropWhile isSpaceC).reverse.dropWhile isSpaceC).reverse

/-- Capitalize, modelling Python `str.capitalize()`: first character
uppercased, the rest lowercased. -/
def pyCapitalize : List Char → List Char
  | [] => []
  | c :: cs => Char.toUpper c :: lowerStr cs

/-- If `p` is a literal prefix of `s`, return the remainder. -/
def chopPre : List Char → List Char → Option (List Char)
  | [], s => some s
  | _ :: _, [] => none
  | p :: ps, c :: cs => if p = c then chopPre ps cs else none

/-- Does `f` accept some suffix of `s` (i.e. does an unanchored regex
match succeed at some start position)? -/
def searchAny (f : List Char → Bool) : List Char → Bool
  | [] => f []
  | c :: cs => f (c :: cs) || searchAny f cs

/-- Leftmost capturing search: first suffix position (scanning left to
right) at which `f` produces a capture. -/
def searchCap (f : List Char → Option (List Char)) : List Char → Option (List Char)
  | [] => f []
  | c :: cs =>
    match f (c :: cs) with
    | some r => some r
    | none => searchCap f cs

/-- Search tracking the previous character, for word-boundary (`\b`)
sensitive patterns. -/
def searchPrev (f : Option Char → List Char → Bool) : Option Char → List Char → Bool
  | prev, [] => f prev []
  | prev, c :: cs => f prev (c :: cs) || searchPrev f (some c) cs

/-- Substring test, modelling Python `pat in s`. -/
def subMatch (pat : List Char) : List Char → Bool
  | [] => pat.isPrefixOf []
  | c :: cs => pat.isPrefixOf (c :: cs) || subMatch pat cs

/-- Membership of a text in a list of texts, modelling Python `x in list`. -/
def memStr (x : List Char) : List (List Char) → Bool
  | [] => false
  | g :: gs => if x = g then true else memStr x gs

/-- Does `s` start with one of the given literal words? (an anchored
regex alternation `^(w1|w2|...)` with no trailing context). -/
def startsWithOne (ws : List (List Char)) (s : List Char) : Bool :=
  ws.any (fun w => w.isPrefixOf s)

/-- Word-boundary condition against the character preceding the match
(the first matched character being a word character). -/
def boundaryBefore : Option Char → Bool
  | none => true
  | some c => !isWordChar c

/-- Word-boundary condition after the match (the last matched character
being a word character): next character absent or a non-word character. -/
def boundaryAfter : List Char → Bool
  | [] => true
  | c :: _ => !isWordChar c

-- Vocabulary from `bot.py`

/-- The literal phrase i-apostrophe-m. -/
def imPhrase : List Char := 'i' :: apos :: [ 'm']

/-- CHESS_KEYWORDS from `ChessGuardrails` (`bot.py` lines 40-49). -/
def CHESS_KEYWORDS : List (List Char) :=
  [ "chess".data, "checkmate".data, "stalemate".data, "draw".data, "resign".data,
    "pawn".data, "knight".data, "bishop".data, "rook".data, "queen".data, "king".data,
    "castling".data, "en passant".data, "promotion".data, "capture".data,
    "opening".data, "middlegame".data, "endgame".data, "gambit".data, "defense".data,
    "fork".data, "pin".data, "skewer".data, "sacrifice".data, "tactic".data, "strategy".data,
    "grandmaster".data, "fide".data, "elo".data, "rating".data, "tournament".data,
    "carlsen".data, "kasparov".data, "fischer".data, "karpov".data, "tal".data,
    "move".data, "board".data, "square".data, "piece".data, "position".data, "game".data ]

/-- Greeting words of the anchored allow-pattern
`^(hi|hello|hey|greetings|good morning|good afternoon|good evening)`. -/
def greetStartWords : List (List Char) :=
  [ "hi".data, "hello".data, "hey".data, "greetings".data,
    "good morning".data, "good afternoon".data, "good evening".data ]

/-- Farewell words of the anchored allow-pattern `^(thank you|thanks|bye|goodbye)`. -/
def farewellWords : List (List Char) :=
  [ "thank you".data, "thanks".data, "bye".data, "goodbye".data ]

/-- Introduction phrases of the unanchored pattern
`(i am|i'm|my name is|this is|call me)`. -/
def introPhrases : List (List Char) :=
  [ "i am".data, imPhrase, "my name is".data, "this is".data, "call me".data ]

-- Guardrail classifier (`ChessGuardrails.is_chess_related`)

/-- Match of `(i am|i'm|my name is|this is|call me)\s+[a-zA-Z]+` at the
start of `s`: an introduction phrase, one or more whitespace characters,
then at least one ASCII letter. -/
def introHitAt (s : List Char) : Bool :=
  introPhrases.any fun p =>
    match chopPre p s with
    | some (c :: rest) =>
      isSpaceC c &&
        (match (c :: rest).dropWhile isSpaceC with
         | d :: _ => d.isAlpha
         | [] => false)
    | _ => false

/-- Unanchored search for the introduction pattern. -/
def introHit (s : List Char) : Bool := searchAny introHitAt s

/-- Match of `\b[a-h][1-8]\b` at a position (given the preceding character). -/
def coordAt (prev : Option Char) : List Char → Bool
  | a :: b :: rest =>
    boundaryBefore prev && ('a' ≤ a && a ≤ 'h') && ('1' ≤ b && b ≤ '8') &&
      boundaryAfter rest
  | _ => false

/-- Is the character one of the piece letters `[KQRBN]`? -/
def isPieceChar (c : Char) : Bool :=
  c == 'K' || c == 'Q' || c == 'R' || c == 'B' || c == 'N'

/-- Tail of `\b[KQRBN][a-h]?[1-8]?\b` after the piece letter: the optional
file and rank parts followed by a word boundary, with regex backtracking
resolved (consuming a file/rank character is forced exactly when it is
present, since those characters are word characters). -/
def pieceTail : List Char → Bool
  | [] => true
  | c :: rest2 =>
    if 'a' ≤ c && c ≤ 'h' then
      match rest2 with
      | [] => true
      | d :: rest3 => if '1' ≤ d && d ≤ '8' then boundaryAfter rest3 else !isWordChar d
    else if '1' ≤ c && c ≤ '8' then
      match rest2 with
      | [] => true
      | d :: _ => !isWordChar d
    else !isWordChar c

/-- Match of `\b[KQRBN][a-h]?[1-8]?\b` at a position. -/
def pieceAt (prev : Option Char) : List Char → Bool
  | c :: rest => boundaryBefore prev && isPieceChar c && pieceTail rest
  | [] => false

/-- Match of `\bO-O(-O)?\b` at a position (either the long or the short
form may complete the match). -/
def castleAt (prev : Option Char) : List Char → Bool
  | 'O' :: '-' :: 'O' :: rest =>
    boundaryBefore prev &&
      (match rest with
       | '-' :: 'O' :: rest2 => boundaryAfter rest2 || boundaryAfter rest
       | _ => boundaryAfter rest)
  | _ => false

/-- Chess-notation step of the guardrail: the three notation regexes are
searched over the ORIGINAL (non-lowercased) text (`bot.py` lines 72-81). -/
def chessMoveHit (text : List Char) : Bool :=
  searchPrev coordAt none text || searchPrev pieceAt none text ||
    searchPrev castleAt none text

/-- Keyword step of the guardrail: some chess keyword occurs as a
substring of the lowercased text. -/
def keywordHit (tl : List Char) : Bool :=
  CHESS_KEYWORDS.any fun kw => subMatch kw tl

/-- ChessGuardrails.is_chess_related (`bot.py` lines 51-83): greeting /
introduction / farewell allow-patterns on the lowercased text, then chess
keywords on the lowercased text, then chess-notation regexes on the
original text. -/
def is_chess_related (text : List Char) : Bool :=
  let tl := lowerStr text
  startsWithOne greetStartWords tl || introHit tl || startsWithOne farewellWords tl ||
    keywordHit tl || chessMoveHit text

/-- ChessGuardrails.get_rejection_message (`bot.py` lines 85-96). -/
def get_rejection_message : List Char :=
  "🚫 I".data ++ apos :: "m sorry, but I can only answer questions related to chess.\n\nPlease ask me about:\n• Chess rules and regulations\n• Opening strategies and defenses\n• Famous players and games\n• Chess tactics and strategies\n• Tournament history\n• Anything else chess-related!".data

-- Name extractor (`PersonalizationHelper.extract_name`)

/-- Excluded capture words of `extract_name`. -/
def excludedWords : List (List Char) :=
  [ "chess".data, "here".data, "there".data, "player".data, "learning".data ]

/-- Capture of `(?:i am|i'm|my name is|this is|call me)\s+([a-zA-Z]+)` at
the start of `s`: the maximal letter run after the whitespace. -/
def introCapAt (s : List Char) : Option (List Char) :=
  introPhrases.findSome? fun p =>
    match chopPre p s with
    | some (c :: rest) =>
      if isSpaceC c then
        let nm := ((c :: rest).dropWhile isSpaceC).takeWhile Char.isAlpha
        if nm.isEmpty then none else some nm
      else none
    | _ => none

/-- Capture of the anchored pattern
`^(?:hi|hello|hey),?\s+(?:i am|i'm)\s+([a-zA-Z]+)`. -/
def greetIntroCap (tl : List Char) : Option (List Char) :=
  [ "hi".data, "hello".data, "hey".data].findSome? fun g =>
    (chopPre g tl).bind fun r0 =>
      let r1 := match r0 with
                | c :: rest => if c == ',' then rest else r0
                | [] => r0
      match r1 with
      | c :: rest =>
        if isSpaceC c then
          ([ "i am".data, imPhrase].findSome? fun p =>
            chopPre p ((c :: rest).dropWhile isSpaceC)).bind fun r3 =>
            match r3 with
            | d :: rest4 =>
              if isSpaceC d then
                let nm := ((d :: rest4).dropWhile isSpaceC).takeWhile Char.isAlpha
                if nm.isEmpty then none else some nm
              else none
            | [] => none
        else none
      | [] => none

/-- Capture of the anchored pattern `^([a-zA-Z]+)\s+here`. -/
def leadNameHereCap (tl : List Char) : Option (List Char) :=
  let nm := tl.takeWhile Char.isAlpha
  if nm.isEmpty then none
  else
    match tl.drop nm.length with
    | c :: rest =>
      if isSpaceC c then
        if "here".data.isPrefixOf ((c :: rest).dropWhile isSpaceC) then some nm else none
      else none
    | [] => none

/-- The three pattern captures of `extract_name`, in source order. -/
def nameCaps (tl : List Char) : List (Option (List Char)) :=
  [searchCap introCapAt tl, greetIntroCap tl, leadNameHereCap tl]

/-- The pattern loop of `extract_name`: take the first pattern whose
(capitalized) capture is not an excluded word; a pattern that matches an
excluded word falls through to the next pattern. -/
def pickName : List (Option (List Char)) → Option (List Char)
  | [] => none
  | none :: rest => pickName rest
  | some raw :: rest =>
    let nm := pyCapitalize raw
    if memStr (lowerStr nm) excludedWords then pickName rest else some nm

/-- PersonalizationHelper.extract_name (`bot.py` lines 103-120). -/
def extract_name (text : List Char) : Option (List Char) :=
  pickName (nameCaps (lowerStr text))

-- Greeting detector (`PersonalizationHelper.is_greeting`)

/-- The fixed closed set of simple greetings (`bot.py` lines 126-130). -/
def simpleGreetings : List (List Char) :=
  [ "hi".data, "hello".data, "hey".data, "greetings".data,
    "good morning".data, "good afternoon".data, "good evening".data,
    "howdy".data, "hiya".data, "yo".data ]

/-- PersonalizationHelper.is_greeting (`bot.py` lines 122-131):
exact membership of the lowercased, stripped text in the closed set. -/
def is_greeting (text : List Char) : Bool :=
  memStr (pyStrip (lowerStr text)) simpleGreetings

/-- PersonalizationHelper.get_greeting_response (`bot.py` lines 133-139). -/
def get_greeting_response : Option (List Char) → List Char
  | some n =>
    "Hello again, ".data ++ n ++ "! 👋 How can I help you with chess today?".data
  | none =>
    "Hello! 👋 Welcome to the Chess Q&A Bot! Feel free to introduce yourself or ask me any chess-related questions!".data

-- Session state and orchestrator (`initialize_session_state`, `main`)

/-- Message roles used by the chat history. -/
inductive Role where
  | user
  | assistant
deriving DecidableEq, Repr

/-- A chat message: role plus content (`bot.py` message dicts). -/
structure Message where
  role : Role
  content : List Char
deriving DecidableEq, Repr

/-- Config.GREETING_MESSAGE (`bot.py` lines 31-33). -/
def GREETING_MESSAGE : List Char :=
  "👋 Hello! I".data ++ apos :: "m your Chess Q&A Bot!\n    \nAsk me anything about chess - rules, openings, strategies, famous players, tournaments, and chess history!".data

/-- The seeded assistant greeting message added by session initialization. -/
def seedMsg : Message := ⟨Role.assistant, GREETING_MESSAGE⟩

/-- The Streamlit session state of `bot.py`: the displayed message
history, the sticky extracted user name, the question counter, the
LangChain conversation memory (modelled as the list of saved
input/response turn pairs), and the session start timestamp. -/
structure SessionState where
  messages : List Message
  user_name : Option (List Char)
  total_questions : Nat
  memory : List (List Char × List Char)
  session_start_time : List Char
deriving DecidableEq, Repr

/-- Fresh session state built by `initialize_session_state`
(`bot.py` lines 208-230): one seeded greeting message, no name, zero
questions, empty memory. -/
def initial_state (t0 : List Char) : SessionState :=
  ⟨[seedMsg], none, 0, [], t0⟩

/-- The Clear Chat History action (`bot.py` lines 348-357): restore the
single seeded greeting, clear the name, zero the counter, clear the
LangChain memory.  The session start time is not touched. -/
def reset (s : SessionState) : SessionState :=
  { s with messages := [seedMsg], user_name := none, total_questions := 0,
           memory := [] }

/-- Outcome of the external LLM client call made by `generate_response`:
either a completion text or a raised exception with its message text. -/
inductive LLMResult where
  | success (text : List Char)
  | failure (err : List Char)
deriving DecidableEq, Repr

/-- Error classification of the except-branch of `generate_response`
(`bot.py` lines 384-392). -/
def classify_error (e : List Char) : List Char :=
  let el := lowerStr e
  if subMatch "api key".data el || subMatch "unauthorized".data el then
    "🔑 **Authentication Error**: Invalid API key. Please check your .env file.".data
  else if subMatch "rate limit".data el then
    "⏱️ **Rate Limit**: Too many requests. Please wait a moment.".data
  else
    "⚠️ **Error**: ".data ++ e

/-- generate_response (`bot.py` lines 364-392): on success the stripped
completion text, on exception the classified user-visible error message.
The exception is caught inside the function, so the caller cannot
distinguish the two cases. -/
def generate_response : LLMResult → List Char
  | .success t => pyStrip t
  | .failure e => classify_error e

/-- Append a message to the history (`st.session_state.messages.append`). -/
def appendMsg (s : SessionState) (m : Message) : SessionState :=
  { s with messages := s.messages ++ [m] }

/-- Name-extraction step of `main` (`bot.py` lines 456-460): only runs
while no name is stored; the first successful extraction sticks. -/
def maybeSetName (s : SessionState) (input : List Char) : SessionState :=
  match s.user_name with
  | none =>
    match extract_name input with
    | some n => { s with user_name := some n }
    | none => s
  | some _ => s

/-- One user turn of `main` (`bot.py` lines 445-500): append the user
message, run name extraction, then dispatch greeting → guardrail → LLM
branches.  The second component reports whether the LLM client was
invoked.  On LLM success the turn is saved to the LangChain memory; a
raised exception aborts the chain before the memory save. -/
def process_input (s : SessionState) (input : List Char) (llm : LLMResult) :
    SessionState × Bool :=
  let s1 := appendMsg s ⟨Role.user, input⟩
  let s2 := maybeSetName s1 input
  if is_greeting input then
    (appendMsg s2 ⟨Role.assistant, get_greeting_response s2.user_name⟩, false)
  else if !is_chess_related input then
    (appendMsg s2 ⟨Role.assistant, get_rejection_message⟩, false)
  else
    let resp := generate_response llm
    ({ appendMsg s2 ⟨Role.assistant, resp⟩ with
        total_questions := s2.total_questions + 1,
        memory := match llm with
          | .success _ => s2.memory ++ [(input, resp)]
          | .failure _ => s2.memory }, true)

-- Session export (`export_conversation_history`)

/-- Decimal rendering of a natural number. -/
def natStr (n : Nat) : List Char := (Nat.repr n).data

/-- Uppercase role tag used in exported blocks (`msg['role'].upper()`). -/
def roleUpper : Role → List Char
  | Role.user => "USER".data
  | Role.assistant => "ASSISTANT".data

/-- One numbered block of the exported transcript:
`{idx}. [{ROLE}]\n{content}\n\n`. -/
def msgBlock (idx : Nat) (m : Message) : List Char :=
  natStr idx ++ ". [".data ++ roleUpper m.role ++ "]\n".data ++ m.content ++ "\n\n".data

/-- Fallback user label of the export header. -/
def anonymousName : List Char := "Anonymous".data

/-- Header block of the exported transcript (`bot.py` lines 236-245),
as a function of the four recorded values. -/
def headerText (start nameOr : List Char) (q : Nat) (now : List Char) : List Char :=
  "\n# Chess Q&A Chatbot - Conversation History\n# Session Started: ".data ++ start ++
    "\n# User: ".data ++ nameOr ++
    "\n# Total Questions: ".data ++ natStr q ++
    "\n# Export Time: ".data ++ now ++
    "\n\n".data ++ List.replicate 60 '=' ++ "\n\n".data

/-- The enumerate-from-1 loop of `export_conversation_history`
(`bot.py` lines 247-250), accumulating block text. -/
def exportLoop (acc : List Char) (idx : Nat) : List Message → List Char
  | [] => acc
  | m :: rest => exportLoop (acc ++ msgBlock idx m) (idx + 1) rest

/-- export_conversation_history (`bot.py` lines 232-252): header block
followed by one numbered block per stored message. -/
def export_conversation_history (s : SessionState) (now : List Char) : List Char :=
  exportLoop
    (headerText s.session_start_time (s.user_name.getD anonymousName)
      s.total_questions now) 1 s.messages

/-- Index list `[i, i+1, ..., i+n-1]` used to state the declarative form
of the export loop. -/
def idxFrom (i : Nat) : Nat → List Nat
  | 0 => []
  | n + 1 => i :: idxFrom (i + 1) n

-- History-shape invariant

/-- Message list consisting of the given user/assistant turn pairs. -/
def turnsToMsgs : List (List Char × List Char) → List Message
  | [] => []
  | (u, a) :: rest => ⟨Role.user, u⟩ :: ⟨Role.assistant, a⟩ :: turnsToMsgs rest

/-- A well-shaped chat history: the seeded greeting followed by complete
user/assistant turn pairs. -/
def GoodHist (l : List Message) : Prop :=
  ∃ ps : List (List Char × List Char), l = seedMsg :: turnsToMsgs ps

/-- Session states reachable by the application: a fresh session,
processing one user input (with an arbitrary LLM outcome), or the
Clear Chat History action. -/
inductive Reachable : SessionState → Prop where
  | init (t0 : List Char) : Reachable (initial_state t0)
  | step {s : SessionState} (input : List Char) (llm : LLMResult) :
      Reachable s → Reachable (process_input s input llm).1
  | clear {s : SessionState} : Reachable s → Reachable (reset s)

-- Concrete inputs used in the claims

/-- The text i-apostrophe-m-space-Magnus. -/
def imMagnusText : List Char := 'I' :: apos :: "m Magnus".data

/-- The text i-apostrophe-m-space-learning-space-chess. -/
def imLearningChessText : List Char := 'I' :: apos :: "m learning chess".data

/-- Sample non-introduction question. -/
def whatIsAForkText : List Char := "what is a fork".data

/-- The extracted name Magnus. -/
def magnusName : List Char := "Magnus".data

/-- Self-introduction input of the Alice scenario. -/
def aliceText : List Char := "My name is Alice".data

/-- The extracted name Alice. -/
def aliceName : List Char := "Alice".data

/-- Chess question of the Sicilian scenario. -/
def sicilianText : List Char := "What is a Sicilian Defense?".data

/-- Sample exception text raised by the LLM client. -/
def boomErr : List Char := "boom".data

/-- Sample successful LLM completion text. -/
def okText : List Char := "The Sicilian is a chess opening.".data

/-- Greeting input with surrounding whitespace and capitals. -/
def hiPadded : List Char := " Hi ".data

/-- Sentence that contains the greeting word hi without being one. -/
def hiThereText : List Char := "hi there, how are you".data

/-- Bare greeting input. -/
def hiText : List Char := "hi".data

/-- Text containing the keyword chess. -/
def loveChessText : List Char := "I love Chess".data

/-- Off-topic text beginning with a greeting word. -/
def helloWeatherText : List Char := "Hello, what is the weather like?".data

/-- Uppercase algebraic piece move. -/
def nf3Text : List Char := "Nf3".data

/-- Uppercase castling text. -/
def castleText : List Char := "O-O".data

-- Helper lemmas

theorem memStr_iff (x : List Char) (l : List (List Char)) :
    memStr x l = true ↔ x ∈ l := by
  induction l with
  | nil => simp [memStr]
  | cons g gs ih =>
    simp only [memStr, List.mem_cons]
    split
    · simp [*]
    · simp [*]

theorem maybeSetName_messages (s : SessionState) (input : List Char) :
    (maybeSetName s input).messages = s.messages := by
  unfold maybeSetName
  cases s.user_name <;> [cases extract_name input <;> rfl; rfl]

theorem maybeSetName_total (s : SessionState) (input : List Char) :
    (maybeSetName s input).total_questions = s.total_questions := by
  unfold maybeSetName
  cases s.user_name <;> [cases extract_name input <;> rfl; rfl]

theorem appendMsg_total (s : SessionState) (m : Message) :
    (appendMsg s m).total_questions = s.total_questions := rfl

/-- Every branch of one processed turn appends exactly the user message
and one assistant message to the history. -/
theorem step_messages (s : SessionState) (input : List Char) (llm : LLMResult) :
    ∃ r, (process_input s input llm).1.messages =
      s.messages ++ [⟨Role.user, input⟩, ⟨Role.assistant, r⟩] := by
  unfold process_input
  by_cases hg : is_greeting input
  · refine ⟨get_greeting_response (maybeSetName (appendMsg s ⟨Role.user, input⟩) input).user_name, ?_⟩
    simp [hg, appendMsg, maybeSetName_messages]
  · by_cases hc : is_chess_related input
    · refine ⟨generate_response llm, ?_⟩
      simp [hg, hc, appendMsg, maybeSetName_messages]
    · refine ⟨get_rejection_message, ?_⟩
      simp [hg, hc, appendMsg, maybeSetName_messages]

theorem turnsToMsgs_append (ps : List (List Char × List Char)) (u a : List Char) :
    turnsToMsgs (ps ++ [(u, a)]) = turnsToMsgs ps ++ [⟨Role.user, u⟩, ⟨Role.assistant, a⟩] := by
  induction ps with
  | nil => rfl
  | cons p rest ih => cases p; simp [turnsToMsgs, ih]

theorem turnsToMsgs_length (ps : List (List Char × List Char)) :
    (turnsToMsgs ps).length = 2 * ps.length := by
  induction ps with
  | nil => rfl
  | cons p rest ih => cases p; simp [turnsToMsgs, ih]; omega

theorem pickName_sound (l : List (Option (List Char))) (n : List Char)
    (h : pickName l = some n) :
    memStr (lowerStr n) excludedWords = false ∧ ∃ raw, n = pyCapitalize raw := by
  induction l with
  | nil => simp [pickName] at h
  | cons o rest ih =>
    cases o with
    | none => exact ih (by simpa [pickName] using h)
    | some raw =>
      simp only [pickName] at h
      split at h
      · exact ih h
      · cases h
        refine ⟨by simp_all, raw, rfl⟩

theorem exportLoop_eq (l : List Message) (acc : List Char) (i : Nat) :
    exportLoop acc i l =
      acc ++ (List.zipWith msgBlock (idxFrom i l.length) l).flatten := by
  induction l generalizing acc i with
  | nil => simp [exportLoop, idxFrom]
  | cons m rest ih =>
    simp [exportLoop, idxFrom, ih, List.append_assoc]

theorem idxFrom_length (i n : Nat) : (idxFrom i n).length = n := by
  induction n generalizing i with
  | zero => rfl
  | succ k ih => simp [idxFrom, ih]

-- Claim theorems

/-- Claim C3: for every input text, if the text after trimming and
lowercasing is exactly equal to one of the fixed greeting phrases then
`is_greeting` returns true; if it merely contains such a phrase as a
proper substring without itself being one of the phrases (e.g.
"hi there, how are you") then `is_greeting` returns false. -/
theorem greeting_exact_match_only (t : List Char) :
    (pyStrip (lowerStr t) ∈ simpleGreetings → is_greeting t = true) ∧
    ((∃ g ∈ simpleGreetings,
        subMatch g (pyStrip (lowerStr t)) = true ∧ g ≠ pyStrip (lowerStr t)) →
      pyStrip (lowerStr t) ∉ simpleGreetings → is_greeting t = false) ∧
    is_greeting hiThereText = false := by
  refine ⟨fun h => (memStr_iff _ _).mpr h, fun _ h2 => ?_, by decide⟩
  unfold is_greeting
  rcases hb : memStr (pyStrip (lowerStr t)) simpleGreetings with _ | _
  · rfl
  · exact absurd ((memStr_iff _ _).mp hb) h2

/-- Witness for C3 at concrete inputs. -/
theorem greeting_exact_match_only_witness :
    is_greeting hiPadded = true ∧ is_greeting hiThereText = false :=
  ⟨(greeting_exact_match_only hiPadded).1 (by decide),
   (greeting_exact_match_only hiThereText).2.1 (by decide) (by decide)⟩

/-- Claim C4: `is_chess_related` returns true whenever the text contains
any chess keyword as a case-insensitive substring, and also whenever the
(lowercased) text begins with one of the greeting words, regardless of
the rest of its content. -/
theorem guardrail_keyword_and_greeting_accept (t : List Char) :
    ((∃ kw ∈ CHESS_KEYWORDS, subMatch kw (lowerStr t) = true) →
      is_chess_related t = true) ∧
    ((∃ g ∈ greetStartWords, g.isPrefixOf (lowerStr t) = true) →
      is_chess_related t = true) := by
  constructor
  · rintro ⟨kw, hmem, hsub⟩
    have h : keywordHit (lowerStr t) = true := by
      unfold keywordHit
      rw [List.any_eq_true]
      exact ⟨kw, hmem, hsub⟩
    unfold is_chess_related
    simp [h]
  · rintro ⟨g, hmem, hpre⟩
    have h : startsWithOne greetStartWords (lowerStr t) = true := by
      unfold startsWithOne
      rw [List.any_eq_true]
      exact ⟨g, hmem, hpre⟩
    unfold is_chess_related
    simp [h]

/-- Witness for C4 at concrete inputs. -/
theorem guardrail_keyword_and_greeting_accept_witness :
    is_chess_related loveChessText = true ∧ is_chess_related helloWeatherText = true :=
  ⟨(guardrail_keyword_and_greeting_accept loveChessText).1 (by decide),
   (guardrail_keyword_and_greeting_accept helloWeatherText).2 (by decide)⟩

/-- Claim C5: `extract_name` returns Magnus on the first sample, no match
on the excluded-word sample and on the non-introduction sample; and any
returned name is a capitalized capture that is never (lowercased) a
member of the exclusion set. -/
theorem extract_name_cases_and_exclusion :
    extract_name imMagnusText = some magnusName ∧
    extract_name imLearningChessText = none ∧
    extract_name whatIsAForkText = none ∧
    ∀ t n, extract_name t = some n →
      lowerStr n ∉ excludedWords ∧ ∃ raw, n = pyCapitalize raw := by
  refine ⟨by decide, by decide, by decide, fun t n h => ?_⟩
  obtain ⟨h1, h2⟩ := pickName_sound (nameCaps (lowerStr t)) n h
  refine ⟨fun hm => ?_, h2⟩
  have := (memStr_iff (lowerStr n) excludedWords).mpr hm
  rw [h1] at this
  exact absurd this (by simp)

/-- Witness for C5, applying the universal part at the Magnus input. -/
theorem extract_name_cases_and_exclusion_witness :
    lowerStr magnusName ∉ excludedWords ∧ ∃ raw, magnusName = pyCapitalize raw :=
  extract_name_cases_and_exclusion.2.2.2 imMagnusText magnusName (by decide)

/-- Claim C6: session reset is idempotent and total: after reset the
history is exactly the seeded greeting, the name is unset, the question
count is 0, the context window is cleared, and resetting twice equals
resetting once. -/
theorem reset_idempotent_total (s : SessionState) :
    (reset s).messages = [seedMsg] ∧ (reset s).user_name = none ∧
    (reset s).total_questions = 0 ∧ (reset s).memory = [] ∧
    reset (reset s) = reset s :=
  ⟨rfl, rfl, rfl, rfl, rfl⟩

/-- Claim C7: a turn taken by the greeting branch or the rejection branch
never invokes the LLM client and leaves the question count unchanged. -/
theorem non_llm_branches_frame (s : SessionState) (input : List Char) (llm : LLMResult)
    (h : is_greeting input = true ∨ is_chess_related input = false) :
    (process_input s input llm).2 = false ∧
    (process_input s input llm).1.total_questions = s.total_questions := by
  unfold process_input
  rcases h with hg | hc
  · simp [hg, appendMsg_total, maybeSetName_total]
  · by_cases hg : is_greeting input
    · simp [hg, appendMsg_total, maybeSetName_total]
    · simp [hg, hc, appendMsg_total, maybeSetName_total]

/-- Witness for C7 at a concrete greeting input. -/
theorem non_llm_branches_frame_witness :
    (process_input (initial_state []) hiText (LLMResult.success [])).2 = false ∧
    (process_input (initial_state []) hiText (LLMResult.success [])).1.total_questions =
      (initial_state []).total_questions :=
  non_llm_branches_frame (initial_state []) hiText (LLMResult.success []) (Or.inl (by decide))

/-- Claim C10: the chess-notation step runs on the original (non-lowercased)
text: uppercase notation Nf3 and O-O is classified chess-related while the
lowercased forms nf3 and o-o are rejected, neither form matching any
greeting/introduction pattern or chess keyword. -/
theorem chess_move_case_sensitive :
    is_chess_related nf3Text = true ∧
    is_chess_related (lowerStr nf3Text) = false ∧
    is_chess_related castleText = true ∧
    is_chess_related (lowerStr castleText) = false ∧
    startsWithOne greetStartWords (lowerStr nf3Text) = false ∧
    introHit (lowerStr nf3Text) = false ∧
    keywordHit (lowerStr nf3Text) = false ∧
    startsWithOne greetStartWords (lowerStr castleText) = false ∧
    introHit (lowerStr castleText) = false ∧
    keywordHit (lowerStr castleText) = false := by
  decide

/-- Counterexample to C1 as stated: on the LLM branch with a raised
exception, the question counter IS incremented (from 0 to 1), because
`generate_response` catches the exception internally and `main`
increments unconditionally after it returns. -/
theorem llm_exception_still_increments :
    (initial_state []).total_questions = 0 ∧
    (process_input (initial_state []) sicilianText
      (LLMResult.failure boomErr)).1.total_questions = 1 ∧
    (process_input (initial_state []) sicilianText
      (LLMResult.failure boomErr)).1.messages =
      (initial_state []).messages ++
        [⟨Role.user, sicilianText⟩, ⟨Role.assistant, classify_error boomErr⟩] := by
  refine ⟨rfl, by decide, by decide⟩

/-- Claim C1 (amended): every input routed to the LLM branch increments
the question counter by exactly 1 regardless of whether the LLM call
succeeds or raises; on success the trimmed completion and on exception
the classified user-visible error message is appended as the assistant
message. -/
theorem llm_branch_counts_and_appends (s : SessionState) (input : List Char)
    (llm : LLMResult) (hg : is_greeting input = false)
    (hc : is_chess_related input = true) :
    (process_input s input llm).1.total_questions = s.total_questions + 1 ∧
    (process_input s input llm).2 = true ∧
    (process_input s input llm).1.messages =
      s.messages ++ [⟨Role.user, input⟩, ⟨Role.assistant, generate_response llm⟩] ∧
    (∀ e, generate_response (LLMResult.failure e) = classify_error e) ∧
    (∀ txt, generate_response (LLMResult.success txt) = pyStrip txt) := by
  unfold process_input
  refine ⟨?_, ?_, ?_, fun _ => rfl, fun _ => rfl⟩ <;>
    simp [hg, hc, appendMsg, maybeSetName_messages, maybeSetName_total,
      maybeSetName, appendMsg_total]
  · have := maybeSetName_total (appendMsg s ⟨Role.user, input⟩) input
    simp [maybeSetName, appendMsg] at this
    omega
  · have := maybeSetName_messages (appendMsg s ⟨Role.user, input⟩) input
    simp [maybeSetName, appendMsg] at this
    simp [this]

/-- Witness for the amended C1 at a concrete chess question. -/
theorem llm_branch_counts_and_appends_witness :
    (process_input (initial_state []) sicilianText
      (LLMResult.success okText)).1.total_questions =
        (initial_state []).total_questions + 1 ∧
    (process_input (initial_state []) sicilianText
      (LLMResult.success okText)).2 = true :=
  ⟨(llm_branch_counts_and_appends (initial_state []) sicilianText
      (LLMResult.success okText) (by decide) (by decide)).1,
   (llm_branch_counts_and_appends (initial_state []) sicilianText
      (LLMResult.success okText) (by decide) (by decide)).2.1⟩

/-- Counterexample to C2 as stated: the guardrail does NOT reject
"My name is Alice" — the self-introduction allow-pattern accepts it, the
LLM client is invoked, and the appended assistant message is not the
fixed rejection text. -/
theorem alice_input_passes_guardrail :
    is_chess_related aliceText = true ∧
    (process_input (initial_state []) aliceText (LLMResult.success okText)).2 = true ∧
    (process_input (initial_state []) aliceText
      (LLMResult.success okText)).1.messages ≠
      (initial_state []).messages ++
        [⟨Role.user, aliceText⟩, ⟨Role.assistant, get_rejection_message⟩] := by
  refine ⟨by decide, by decide, by decide⟩

/-- Claim C2 (amended): for the input "My name is Alice" on a fresh
session, the extractor stores "Alice", the input is not a bare greeting
and contains no chess keyword, but the guardrail accepts it via the
self-introduction allow-pattern, so the LLM branch is invoked and its
response (not the rejection text) is appended; the name remains stored. -/
theorem alice_input_llm_branch (t0 : List Char) (llm : LLMResult) :
    extract_name aliceText = some aliceName ∧
    is_greeting aliceText = false ∧
    keywordHit (lowerStr aliceText) = false ∧
    is_chess_related aliceText = true ∧
    (process_input (initial_state t0) aliceText llm).1.user_name = some aliceName ∧
    (process_input (initial_state t0) aliceText llm).2 = true ∧
    (process_input (initial_state t0) aliceText llm).1.messages =
      (initial_state t0).messages ++
        [⟨Role.user, aliceText⟩, ⟨Role.assistant, generate_response llm⟩] :=
  ⟨by decide, by decide, by decide, by decide, rfl, rfl, rfl⟩

/-- Claim C8: the exported transcript is the header block built from the
session start time, the stored user name (or "Anonymous" when none), the
question count and the export time, followed by one numbered role/content
block per stored message, in history order. -/
theorem export_format (s : SessionState) (now : List Char) :
    export_conversation_history s now =
      headerText s.session_start_time (s.user_name.getD anonymousName)
        s.total_questions now ++
        (List.zipWith msgBlock (idxFrom 1 s.messages.length) s.messages).flatten ∧
    (List.zipWith msgBlock (idxFrom 1 s.messages.length) s.messages).length =
      s.messages.length := by
  constructor
  · exact exportLoop_eq s.messages _ 1
  · simp [List.length_zipWith, idxFrom_length]

/-- Claim C9: the history starts as the single seeded assistant greeting;
every processed input appends exactly the user message followed by one
assistant message, whichever branch handles it; hence every reachable
state's history is the seed followed by complete user/assistant turn
pairs and has odd length. -/
theorem history_alternation_invariant :
    (∀ t0, (initial_state t0).messages = [seedMsg]) ∧
    (∀ s input llm, ∃ r, (process_input s input llm).1.messages =
        s.messages ++ [⟨Role.user, input⟩, ⟨Role.assistant, r⟩]) ∧
    (∀ s, Reachable s → GoodHist s.messages ∧ s.messages.length % 2 = 1) := by
  refine ⟨fun _ => rfl, step_messages, fun s h => ?_⟩
  induction h with
  | init t0 => exact ⟨⟨[], rfl⟩, rfl⟩
  | step input llm hR ih =>
    obtain ⟨⟨ps, hps⟩, hlen⟩ := ih
    obtain ⟨r, hr⟩ := step_messages _ input llm
    constructor
    · exact ⟨ps ++ [(input, r)], by rw [hr, hps, turnsToMsgs_append]; simp⟩
    · rw [hr]
      simp only [List.length_append, List.length_cons, List.length_nil]
      omega
  | clear hR ih => exact ⟨⟨[], rfl⟩, rfl⟩

/-- Witness for C9 at the fresh session state. -/
theorem history_alternation_invariant_witness :
    GoodHist (initial_state []).messages ∧
    (initial_state []).messages.length % 2 = 1 :=
  history_alternation_invariant.2.2 (initial_state []) (Reachable.init [])
